import Mathlib

/-!
Verification development for the Playbian Auto Typer automation core.

The definitions below are a shallow embedding of the Python sources:
  * `actions.py` — the action data model (`Action` and its variants), the
    special-key tokenizer, and the sequence execution engine
    (`ActionSequence.execute`);
  * `api_integration.py` — the generative response parser
    (`GeminiProvider._parse_action_response` and friends);
  * `config.py` — the `SPECIAL_KEYS` registry.

Modelling conventions:
  * Python numbers (ints and floats) are modelled as `Rat`; Python strings as
    `String`; dictionaries produced by `to_dict` as association lists over a
    small dynamic-value type `PyVal`.
  * `time.time()` is passed explicitly as a `now : Rat` parameter wherever the
    source calls it.
  * Side effects (`time.sleep`, `pyautogui` calls, progress callbacks) are
    modelled as event traces.
  * `json.loads` is an external library function; the parser model takes it as
    an explicit parameter `jsonLoads : String → Option JValue` (returning
    `none` models `json.JSONDecodeError`).
-/

/-- Dynamic values stored in the flat dictionaries built by `Action.to_dict`.
Only the value shapes that actually occur in `actions.py` serialization are
represented: strings, numbers, booleans, lists of strings, and `None`. -/
inductive PyVal where
  | str (s : String)
  | num (q : Rat)
  | bool (b : Bool)
  | strList (l : List String)
  | pyNone
deriving DecidableEq, Repr

/-- Flat key-value dictionary, as produced by `Action.to_dict`. -/
abbrev PyDict := List (String × PyVal)

/-- Python `data.get(k, default)`. -/
def dget (d : PyDict) (k : String) (dflt : PyVal) : PyVal :=
  match d.find? (fun p => p.1 = k) with
  | some p => p.2
  | none => dflt

/-- String-typed field read with default. The source is dynamically typed;
dictionaries consumed by `from_dict` in this development are produced by
`to_dict`, so the stored value always has the expected shape and the
wrong-shape fallback is never exercised. -/
def dgetStr (d : PyDict) (k : String) (dflt : String) : String :=
  match dget d k (PyVal.str dflt) with
  | PyVal.str s => s
  | _ => dflt

/-- Numeric field read with default (see `dgetStr` on typing). -/
def dgetNum (d : PyDict) (k : String) (dflt : Rat) : Rat :=
  match dget d k (PyVal.num dflt) with
  | PyVal.num q => q
  | _ => dflt

/-- Boolean field read with default (see `dgetStr` on typing). -/
def dgetBool (d : PyDict) (k : String) (dflt : Bool) : Bool :=
  match dget d k (PyVal.bool dflt) with
  | PyVal.bool b => b
  | _ => dflt

/-- String-list field read with default (see `dgetStr` on typing). -/
def dgetStrList (d : PyDict) (k : String) (dflt : List String) : List String :=
  match dget d k (PyVal.strList dflt) with
  | PyVal.strList l => l
  | _ => dflt

/-- Python `str.title()`: each alphabetic character that follows a
non-alphabetic character is uppercased, the other alphabetic characters are
lowercased. Used for `button.title()` and `direction.title()` in the action
constructors. -/
def pyTitle (s : String) : String :=
  String.mk (s.data.foldl
    (fun (acc : List Char × Bool) c =>
      (acc.1 ++ [if acc.2 then c.toLower else c.toUpper], c.isAlpha))
    ([], false)).1

/-- Fields shared by every action variant, as set in `Action.__init__` and
read or written by the base `to_dict` and `from_dict` (`actions.py` lines
26-32, 58-77). -/
structure ActionBase where
  delay : Rat
  id : PyVal
  name : String
  description : String
  enabled : Bool
  created_at : Rat
deriving DecidableEq, Repr

/-- The seven action variants of `actions.py`, each carrying the base fields
plus its variant-specific fields. Numeric fields (coordinates, clicks,
durations) are modelled as `Rat` to mirror Python's dynamic numbers. -/
inductive ActionData where
  | typeAction (base : ActionBase) (text : String)
  | clickAction (base : ActionBase) (x y : Rat) (button : String)
  | delayAction (base : ActionBase) (wait_time : Rat)
  | hotkeyAction (base : ActionBase) (keys : List String)
  | specialKeyAction (base : ActionBase) (key : String)
  | scrollAction (base : ActionBase) (x y clicks : Rat) (direction : String)
  | dragAction (base : ActionBase) (start_x start_y end_x end_y duration : Rat)
      (button : String)
deriving DecidableEq, Repr

/-- Base-field projection. -/
def ActionData.base : ActionData → ActionBase
  | .typeAction b _ => b
  | .clickAction b _ _ _ => b
  | .delayAction b _ => b
  | .hotkeyAction b _ => b
  | .specialKeyAction b _ => b
  | .scrollAction b _ _ _ _ => b
  | .dragAction b _ _ _ _ _ _ => b

/-- Description formula of `TypeAction` (`actions.py` lines 130, 193):
`text[:50]` plus an ellipsis when the text is longer than 50 characters.
Python slices by code point, hence the `List Char` operations. -/
def typeDescription (text : String) : String :=
  "Type: " ++ String.mk (text.data.take 50) ++
    (if 50 < text.data.length then "..." else "")

/-- Description formula of `ClickAction` (`actions.py` lines 207, 239). -/
def clickDescription (x y : Rat) (button : String) : String :=
  "Click " ++ button ++ " at (" ++ toString x ++ ", " ++ toString y ++ ")"

/-- Description formula of `DelayAction` (`actions.py` lines 251, 271). -/
def delayDescription (wait_time : Rat) : String :=
  "Wait for " ++ toString wait_time ++ " seconds"

/-- Description formula of `HotkeyAction` (`actions.py` lines 283, 305). -/
def hotkeyDescription (keys : List String) : String :=
  "Press " ++ String.intercalate "+" keys

/-- Description formula of `SpecialKeyAction` (`actions.py` lines 317, 337). -/
def specialKeyDescription (key : String) : String :=
  "Press " ++ key ++ " key"

/-- Description formula of `ScrollAction` (`actions.py` lines 352, 393). -/
def scrollDescription (x y clicks : Rat) (direction : String) : String :=
  "Scroll " ++ direction ++ " " ++ toString clicks ++ " clicks at (" ++
    toString x ++ ", " ++ toString y ++ ")"

/-- Description formula of `DragAction` (`actions.py` lines 411, 455). -/
def dragDescription (start_x start_y end_x end_y : Rat) : String :=
  "Drag from (" ++ toString start_x ++ ", " ++ toString start_y ++ ") to (" ++
    toString end_x ++ ", " ++ toString end_y ++ ")"

/-- Base fields as set by `Action.__init__` followed by the subclass
constructor overwriting `name` and `description`. -/
def mkBase (delay : Rat) (name description : String) (now : Rat) : ActionBase :=
  { delay := delay, id := PyVal.pyNone, name := name,
    description := description, enabled := true, created_at := now }

/-- `TypeAction.__init__` (`actions.py` lines 126-130). -/
def TypeAction.mk (text : String) (delay : Rat) (now : Rat) : ActionData :=
  .typeAction (mkBase delay "Type Text" (typeDescription text) now) text

/-- `ClickAction.__init__` (`actions.py` lines 201-207). -/
def ClickAction.mk (x y : Rat) (button : String) (delay : Rat) (now : Rat) :
    ActionData :=
  .clickAction (mkBase delay (pyTitle button ++ " Click")
    (clickDescription x y button) now) x y button

/-- `DelayAction.__init__` (`actions.py` lines 247-251); the base delay is
forced to 0 by the constructor. -/
def DelayAction.mk (wait_time : Rat) (now : Rat) : ActionData :=
  .delayAction (mkBase 0 "Delay" (delayDescription wait_time) now) wait_time

/-- `HotkeyAction.__init__` (`actions.py` lines 279-283), list argument case. -/
def HotkeyAction.mk (keys : List String) (delay : Rat) (now : Rat) : ActionData :=
  .hotkeyAction (mkBase delay "Hotkey" (hotkeyDescription keys) now) keys

/-- `SpecialKeyAction.__init__` (`actions.py` lines 313-317). -/
def SpecialKeyAction.mk (key : String) (delay : Rat) (now : Rat) : ActionData :=
  .specialKeyAction (mkBase delay "Special Key" (specialKeyDescription key) now) key

/-- `ScrollAction.__init__` (`actions.py` lines 345-352). -/
def ScrollAction.mk (x y clicks : Rat) (direction : String) (delay : Rat)
    (now : Rat) : ActionData :=
  .scrollAction (mkBase delay ("Scroll " ++ pyTitle direction)
    (scrollDescription x y clicks direction) now) x y clicks direction

/-- `DragAction.__init__` (`actions.py` lines 401-411). -/
def DragAction.mk (start_x start_y end_x end_y duration : Rat) (button : String)
    (delay : Rat) (now : Rat) : ActionData :=
  .dragAction (mkBase delay ("Drag " ++ pyTitle button)
    (dragDescription start_x start_y end_x end_y) now)
    start_x start_y end_x end_y duration button

/-- Base part of `to_dict` (`actions.py` lines 58-68). -/
def baseToDict (typeName : String) (b : ActionBase) : PyDict :=
  [("type", PyVal.str typeName),
   ("delay", PyVal.num b.delay),
   ("id", b.id),
   ("name", PyVal.str b.name),
   ("description", PyVal.str b.description),
   ("enabled", PyVal.bool b.enabled),
   ("created_at", PyVal.num b.created_at)]

/-- Per-variant `to_dict`: the base dictionary extended with the
variant-specific keys (`actions.py` lines 185-188, 225-232, 263-266, 297-300,
329-332, 377-385, 435-445). -/
def ActionData.to_dict : ActionData → PyDict
  | .typeAction b text =>
      baseToDict "TypeAction" b ++ [("text", PyVal.str text)]
  | .clickAction b x y button =>
      baseToDict "ClickAction" b ++
        [("x", PyVal.num x), ("y", PyVal.num y), ("button", PyVal.str button)]
  | .delayAction b wait_time =>
      baseToDict "DelayAction" b ++ [("wait_time", PyVal.num wait_time)]
  | .hotkeyAction b keys =>
      baseToDict "HotkeyAction" b ++ [("keys", PyVal.strList keys)]
  | .specialKeyAction b key =>
      baseToDict "SpecialKeyAction" b ++ [("key", PyVal.str key)]
  | .scrollAction b x y clicks direction =>
      baseToDict "ScrollAction" b ++
        [("x", PyVal.num x), ("y", PyVal.num y), ("clicks", PyVal.num clicks),
         ("direction", PyVal.str direction)]
  | .dragAction b start_x start_y end_x end_y duration button =>
      baseToDict "DragAction" b ++
        [("start_x", PyVal.num start_x), ("start_y", PyVal.num start_y),
         ("end_x", PyVal.num end_x), ("end_y", PyVal.num end_y),
         ("duration", PyVal.num duration), ("button", PyVal.str button)]

/-- Base part of `from_dict` (`actions.py` lines 70-77); `now` stands for the
`time.time()` default of `created_at`. -/
def baseFromDict (_b : ActionBase) (d : PyDict) (now : Rat) : ActionBase :=
  { delay := dgetNum d "delay" 0,
    id := dget d "id" PyVal.pyNone,
    name := dgetStr d "name" "",
    description := dgetStr d "description" "",
    enabled := dgetBool d "enabled" true,
    created_at := dgetNum d "created_at" now }

/-- Per-variant `from_dict`: base fields, then the variant fields, then the
variant recomputes its `description` from the loaded fields (`actions.py`
lines 190-193, 234-239, 268-271, 302-305, 334-337, 387-393, 447-455). -/
def ActionData.from_dict (a : ActionData) (d : PyDict) (now : Rat) : ActionData :=
  match a with
  | .typeAction b _ =>
      let b := baseFromDict b d now
      let text := dgetStr d "text" ""
      .typeAction { b with description := typeDescription text } text
  | .clickAction b _ _ _ =>
      let b := baseFromDict b d now
      let x := dgetNum d "x" 0
      let y := dgetNum d "y" 0
      let button := dgetStr d "button" "left"
      .clickAction { b with description := clickDescription x y button } x y button
  | .delayAction b _ =>
      let b := baseFromDict b d now
      let wait_time := dgetNum d "wait_time" 1
      .delayAction { b with description := delayDescription wait_time } wait_time
  | .hotkeyAction b _ =>
      let b := baseFromDict b d now
      let keys := dgetStrList d "keys" []
      .hotkeyAction { b with description := hotkeyDescription keys } keys
  | .specialKeyAction b _ =>
      let b := baseFromDict b d now
      let key := dgetStr d "key" "enter"
      .specialKeyAction { b with description := specialKeyDescription key } key
  | .scrollAction b _ _ _ _ =>
      let b := baseFromDict b d now
      let x := dgetNum d "x" 0
      let y := dgetNum d "y" 0
      let clicks := dgetNum d "clicks" 3
      let direction := dgetStr d "direction" "up"
      .scrollAction { b with description := scrollDescription x y clicks direction }
        x y clicks direction
  | .dragAction b _ _ _ _ _ _ =>
      let b := baseFromDict b d now
      let start_x := dgetNum d "start_x" 0
      let start_y := dgetNum d "start_y" 0
      let end_x := dgetNum d "end_x" 0
      let end_y := dgetNum d "end_y" 0
      let duration := dgetNum d "duration" 1
      let button := dgetStr d "button" "left"
      .dragAction { b with description := dragDescription start_x start_y end_x end_y }
        start_x start_y end_x end_y duration button

/-- `Action.create_from_dict` (`actions.py` lines 79-117): a factory keyed by
the `type` discriminant that builds the variant from its required fields and
then calls `from_dict` on the result; unknown discriminants raise
`ValueError`. -/
def Action.create_from_dict (now : Rat) (d : PyDict) : Except String ActionData :=
  let mk? : Option ActionData :=
    match dget d "type" PyVal.pyNone with
    | PyVal.str s =>
        if s = "TypeAction" then
          some (TypeAction.mk (dgetStr d "text" "") 0 now)
        else if s = "ClickAction" then
          some (ClickAction.mk (dgetNum d "x" 0) (dgetNum d "y" 0)
            (dgetStr d "button" "left") 0 now)
        else if s = "DelayAction" then
          some (DelayAction.mk (dgetNum d "wait_time" 1) now)
        else if s = "HotkeyAction" then
          some (HotkeyAction.mk (dgetStrList d "keys" []) 0 now)
        else if s = "SpecialKeyAction" then
          some (SpecialKeyAction.mk (dgetStr d "key" "enter") 0 now)
        else if s = "ScrollAction" then
          some (ScrollAction.mk (dgetNum d "x" 0) (dgetNum d "y" 0)
            (dgetNum d "clicks" 3) (dgetStr d "direction" "up") 0 now)
        else if s = "DragAction" then
          some (DragAction.mk (dgetNum d "start_x" 0) (dgetNum d "start_y" 0)
            (dgetNum d "end_x" 0) (dgetNum d "end_y" 0)
            (dgetNum d "duration" 1) "left" 0 now)
        else none
    | _ => none
  match mk? with
  | some a => .ok (a.from_dict d now)
  | none => .error "Unknown action type"

/-- The derived description each variant's `from_dict` (and constructor)
computes from the variant fields. Every action the program ever constructs
satisfies `a.base.description = canonicalDescription a`, since `description`
is only ever written by the constructors and `from_dict`. -/
def canonicalDescription : ActionData → String
  | .typeAction _ text => typeDescription text
  | .clickAction _ x y button => clickDescription x y button
  | .delayAction _ wait_time => delayDescription wait_time
  | .hotkeyAction _ keys => hotkeyDescription keys
  | .specialKeyAction _ key => specialKeyDescription key
  | .scrollAction _ x y clicks direction => scrollDescription x y clicks direction
  | .dragAction _ start_x start_y end_x end_y _ _ =>
      dragDescription start_x start_y end_x end_y

/-- The `SPECIAL_KEYS` registry of `config.py` (lines 156-179): bracketed
lowercase tokens mapped to canonical `pyautogui` key names. -/
def SPECIAL_KEYS : List (String × String) :=
  [("<enter>", "enter"), ("<tab>", "tab"), ("<space>", "space"),
   ("<backspace>", "backspace"), ("<delete>", "delete"), ("<escape>", "escape"),
   ("<shift>", "shift"), ("<ctrl>", "ctrl"), ("<alt>", "alt"),
   ("<caps_lock>", "capslock"), ("<page_up>", "pageup"),
   ("<page_down>", "pagedown"), ("<home>", "home"), ("<end>", "end"),
   ("<insert>", "insert"), ("<up>", "up"), ("<down>", "down"),
   ("<left>", "left"), ("<right>", "right"),
   ("<f1>", "f1"), ("<f2>", "f2"), ("<f3>", "f3"), ("<f4>", "f4"),
   ("<f5>", "f5"), ("<f6>", "f6"), ("<f7>", "f7"), ("<f8>", "f8"),
   ("<f9>", "f9"), ("<f10>", "f10"), ("<f11>", "f11"), ("<f12>", "f12")]

/-- Registry membership test and lookup (`possible_key in SPECIAL_KEYS` and
`SPECIAL_KEYS[possible_key]`). -/
def specialKeyLookup (k : String) : Option String :=
  (SPECIAL_KEYS.find? (fun p => p.1 = k)).map (fun p => p.2)

/-- Output segments of the special-key tokenizer: `("text", s)` or
`("key", canonical_name)` pairs in the source. -/
inductive Segment where
  | text (s : String)
  | key (k : String)
deriving DecidableEq, Repr

/-- Flush of the accumulated literal text: `if current_text:
parts.append(("text", current_text))`. -/
def flushText (acc : List Char) : List Segment :=
  if acc.isEmpty then [] else [Segment.text (String.mk acc)]

/-- Python `text.find(">", i)` restricted to the suffix starting at `i`:
returns the chunk up to and including the first `>` together with the
remainder, or `none` when no `>` exists. -/
def splitAtClose : List Char → Option (List Char × List Char)
  | [] => none
  | c :: cs =>
      if c = '>' then some ([c], cs)
      else
        match splitAtClose cs with
        | some (pre, rest) => some (c :: pre, rest)
        | none => none

/-- The scanning loop of `TypeAction._parse_text_with_special_keys`
(`actions.py` lines 151-179). The loop consumes at least one character per
iteration, so running it with `fuel` initially equal to the length of the
input never exhausts the fuel; the fuel-exhausted branch is unreachable and
present only to make the recursion structural. -/
def tokenizeAux : Nat → List Char → List Char → List Segment
  | _, acc, [] => flushText acc
  | 0, acc, rest => flushText (acc ++ rest)
  | fuel + 1, acc, c :: cs =>
      if c = '<' then
        match splitAtClose (c :: cs) with
        | some (tok, rest) =>
            match specialKeyLookup (String.mk (tok.map Char.toLower)) with
            | some canon =>
                flushText acc ++ Segment.key canon :: tokenizeAux fuel [] rest
            | none => tokenizeAux fuel (acc ++ [c]) cs
        | none => tokenizeAux fuel (acc ++ [c]) cs
      else tokenizeAux fuel (acc ++ [c]) cs

/-- `TypeAction._parse_text_with_special_keys` (`actions.py` lines 151-179). -/
def parseTextWithSpecialKeys (text : String) : List Segment :=
  tokenizeAux text.length [] text.data

/-- Device operations performed through `pyautogui` during action execution. -/
inductive DeviceOp where
  | typewrite (s : String)
  | press (k : String)
  | click (x y : Rat) (button : String)
  | hotkey (keys : List String)
  | moveTo (x y : Rat)
  | scroll (amount : Rat) (x y : Rat)
  | drag (dx dy : Rat) (duration : Rat) (button : String)
deriving DecidableEq, Repr

/-- Observable effects of a single action execution: blocking sleeps and
device operations, in order. -/
inductive ActEvent where
  | sleep (t : Rat)
  | op (o : DeviceOp)
deriving DecidableEq, Repr

/-- The `_execute_impl` of each variant (`actions.py` lines 132-149, 209-213,
253-257, 285-289, 319-323, 354-365, 413-422), as a success flag plus the
ordered effect trace. In the model the device collaborator never fails, so
every `_execute_impl` returns `true`; failing executions are covered
abstractly at the sequence level. -/
def ActionData.execute_impl : ActionData → Bool × List ActEvent
  | .typeAction _ text =>
      if text = "" then (true, [])
      else
        (true, (parseTextWithSpecialKeys text).map (fun seg =>
          match seg with
          | .text s => ActEvent.op (DeviceOp.typewrite s)
          | .key k => ActEvent.op (DeviceOp.press k)))
  | .clickAction _ x y button => (true, [ActEvent.op (DeviceOp.click x y button)])
  | .delayAction _ wait_time => (true, [ActEvent.sleep wait_time])
  | .hotkeyAction _ keys => (true, [ActEvent.op (DeviceOp.hotkey keys)])
  | .specialKeyAction _ key => (true, [ActEvent.op (DeviceOp.press key)])
  | .scrollAction _ x y clicks direction =>
      (true, [ActEvent.op (DeviceOp.moveTo x y),
              ActEvent.op (DeviceOp.scroll
                (if direction = "up" then clicks else -clicks) x y)])
  | .dragAction _ start_x start_y end_x end_y duration button =>
      (true, [ActEvent.op (DeviceOp.drag (end_x - start_x) (end_y - start_y)
        duration button)])

/-- `Action.execute` (`actions.py` lines 34-48): a disabled action returns
success immediately; otherwise the base `delay` is slept when positive and
the variant-specific `_execute_impl` runs. -/
def ActionData.execute (a : ActionData) : Bool × List ActEvent :=
  if !a.base.enabled then (true, [])
  else
    let pre : List ActEvent :=
      if 0 < a.base.delay then [ActEvent.sleep a.base.delay] else []
    let r := a.execute_impl
    (r.1, pre ++ r.2)

/-- Outcome of one `action.execute()` call as observed by the sequence engine
(`actions.py` lines 548-556): a boolean success flag, or a raised
`ActionError`. The engine treats member actions opaquely through this
interface, so sequence-level claims are stated over lists of outcomes. -/
inductive ActOutcome where
  | ok (success : Bool)
  | err
deriving DecidableEq, Repr

/-- Execution configuration of `ActionSequence` (`actions.py` lines 470-474). -/
structure SeqConfig where
  loop_enabled : Bool
  loop_count : Nat
  repeat_interval : Rat
  stop_on_error : Bool
deriving DecidableEq, Repr

/-- Runtime state of `ActionSequence` (`actions.py` lines 476-479). -/
structure SeqRuntime where
  is_running : Bool
  current_action_index : Nat
  current_loop : Nat
deriving DecidableEq, Repr

/-- Events observable during `ActionSequence.execute`: calls delivered to the
progress callback (with the `-1`/`None` inter-loop marker represented by an
`Int` index and an `Option` action), invocations of member actions, and the
inter-loop sleep. -/
inductive ExecEvent where
  | progress (loopIndex loopCount : Nat) (actionIndex : Int) (totalActions : Nat)
      (action : Option Nat)
  | invoke (actionIndex : Nat)
  | sleep (t : Rat)
deriving DecidableEq, Repr

/-- Result of the inner action loop of `ActionSequence.execute`: a `return
False` abort (failing action under `stop_on_error`), a `break` out of the
inner loop (stop predicate fired), or normal completion. -/
inductive InnerResult where
  | aborted
  | stoppedInner
  | completed
deriving DecidableEq, Repr

/-- The inner `for action_index, action in enumerate(self.actions)` loop of
`ActionSequence.execute` (`actions.py` lines 539-556). The stop predicate is
an oracle `stop : Nat → Bool` consulted once per call site, with the call
counter threaded through. Returns the loop result, the event trace, the
mutated runtime state and the updated stop-call counter. -/
def execInner (stop : Nat → Bool) (soe : Bool) (li lc total : Nat) :
    Nat → List ActOutcome → SeqRuntime → Nat →
      InnerResult × List ExecEvent × SeqRuntime × Nat
  | _, [], st, k => (.completed, [], st, k)
  | i, a :: rest, st, k =>
      let st1 : SeqRuntime := { st with current_action_index := i }
      if stop k then (.stoppedInner, [], st1, k + 1)
      else
        let evs : List ExecEvent :=
          [ExecEvent.progress li lc (i : Int) total (some i), ExecEvent.invoke i]
        let failed : Bool :=
          match a with
          | .ok b => !b
          | .err => true
        if failed && soe then (.aborted, evs, st1, k + 1)
        else
          let r := execInner stop soe li lc total (i + 1) rest st1 (k + 1)
          (r.1, evs ++ r.2.1, r.2.2)

/-- The outer `for loop_index in range(loop_count)` loop of
`ActionSequence.execute` (`actions.py` lines 533-562), including the
inter-loop marker callback and sleep. `li` is the current loop index and
`rem` the number of iterations still to run (`li + rem` equals the effective
loop count when called from `ActionSequence.execute`). -/
def execLoops (stop : Nat → Bool) (soe le : Bool) (ri : Rat)
    (acts : List ActOutcome) (lc total : Nat) :
    Nat → Nat → SeqRuntime → Nat → Bool × List ExecEvent × SeqRuntime × Nat
  | _, 0, st, k => (true, [], st, k)
  | li, rem + 1, st, k =>
      let st1 : SeqRuntime := { st with current_loop := li + 1 }
      if stop k then (true, [], st1, k + 1)
      else
        let inner := execInner stop soe li lc total 0 acts st1 (k + 1)
        match inner.1 with
        | .aborted => (false, inner.2.1, inner.2.2)
        | _ =>
            let interEvs : List ExecEvent :=
              if le && decide (li < lc - 1) && decide (0 < ri) then
                [ExecEvent.progress li lc (-1) total none, ExecEvent.sleep ri]
              else []
            let rest := execLoops stop soe le ri acts lc total (li + 1) rem
              inner.2.2.1 inner.2.2.2
            (rest.1, inner.2.1 ++ interEvs ++ rest.2.1, rest.2.2)

/-- `ActionSequence.execute` (`actions.py` lines 525-568): sets
`is_running = True`, computes the effective loop count, runs the loops, and
— in the `finally` block — resets `is_running`, `current_action_index` and
`current_loop` on every exit path. Returns the boolean result, the event
trace, and the runtime state after return. -/
def ActionSequence.execute (cfg : SeqConfig) (acts : List ActOutcome)
    (stop : Nat → Bool) (st0 : SeqRuntime) :
    Bool × List ExecEvent × SeqRuntime :=
  let st1 : SeqRuntime := { st0 with is_running := true }
  let lc : Nat := if cfg.loop_enabled then cfg.loop_count else 1
  let total : Nat := acts.length
  let r := execLoops stop cfg.stop_on_error cfg.loop_enabled cfg.repeat_interval
    acts lc total 0 lc st1 0
  (r.1, r.2.1,
    { r.2.2.1 with is_running := false, current_action_index := 0, current_loop := 0 })

/-- JSON values, as returned by the external `json.loads`. -/
inductive JValue where
  | null
  | bool (b : Bool)
  | num (q : Rat)
  | str (s : String)
  | arr (items : List JValue)
  | obj (fields : List (String × JValue))

/-- Python `data[k]` on a decoded JSON object: `none` models a `KeyError`. -/
def jfind (fields : List (String × JValue)) (k : String) : Option JValue :=
  (fields.find? (fun p => p.1 = k)).map (fun p => p.2)

/-- Python `data.get(k, default)` on a decoded JSON object. -/
def jget (fields : List (String × JValue)) (k : String) (dflt : JValue) : JValue :=
  match jfind fields k with
  | some v => v
  | none => dflt

/-- Digit-string to number, helper for `pyInt?` and `pyFloat?`. -/
def digitsToNat? (cs : List Char) : Option Nat :=
  if cs.isEmpty then none
  else if cs.all Char.isDigit then
    some (cs.foldl (fun n c => 10 * n + (c.toNat - 48)) 0)
  else none

/-- Python `str.strip()` on a character list. -/
def pyStrip (cs : List Char) : List Char :=
  ((cs.dropWhile Char.isWhitespace).reverse.dropWhile Char.isWhitespace).reverse

/-- Python `str.lower()` on a character list. -/
def pyLower (cs : List Char) : List Char := cs.map Char.toLower

/-- Python `s.split(sep)` for a one-character separator. -/
def splitOnChar (sep : Char) (cs : List Char) : List (List Char) :=
  cs.foldr
    (fun c acc =>
      match acc with
      | g :: gs => if c = sep then [] :: g :: gs else (c :: g) :: gs
      | [] => [[c]])
    [[]]

/-- Python `int(s)` for decimal literals: surrounding whitespace and an
optional sign are accepted; `none` models a `ValueError`. -/
def pyInt? (s : List Char) : Option Int :=
  match pyStrip s with
  | '-' :: rest => (digitsToNat? rest).map (fun n => -(n : Int))
  | '+' :: rest => (digitsToNat? rest).map (fun n => (n : Int))
  | cs => (digitsToNat? cs).map (fun n => (n : Int))

/-- Python `float(s)` for plain decimal literals (optional sign, optional
fractional part); exponent forms, `inf`/`nan` and digit underscores are not
modelled — no claim exercises them. `none` models a `ValueError`. -/
def pyFloat? (s : List Char) : Option Rat :=
  let parse : List Char → Option Rat := fun cs =>
    match cs.findIdx? (fun c => c = '.') with
    | none => (digitsToNat? cs).map (fun n => (n : Rat))
    | some i =>
        let ip := cs.take i
        let fp := cs.drop (i + 1)
        if fp.any (fun c => c = '.') then none
        else if ip.isEmpty && fp.isEmpty then none
        else
          let ipn := if ip.isEmpty then some 0 else digitsToNat? ip
          let fpn := if fp.isEmpty then some 0 else digitsToNat? fp
          match ipn, fpn with
          | some a, some b => some ((a : Rat) + (b : Rat) / ((10 : Rat) ^ fp.length))
          | _, _ => none
  match pyStrip s with
  | '-' :: rest => (parse rest).map (fun q => -q)
  | '+' :: rest => parse rest
  | cs => parse cs

/-- One line of `GeminiProvider._parse_text_response` (`api_integration.py`
lines 308-332): the line is stripped, empty lines are skipped, and the
`type:` / `click:` / `wait:` prefixes are matched case-insensitively. -/
def parseTextResponseLine (now : Rat) (rawLine : List Char) : Option ActionData :=
  let line := pyStrip rawLine
  if line.isEmpty then none
  else if List.isPrefixOf "type:".data (pyLower line) then
    some (TypeAction.mk (String.mk (pyStrip (line.drop 5))) (1 / 2) now)
  else if List.isPrefixOf "click:".data (pyLower line) then
    let coords := pyStrip (line.drop 6)
    if coords.contains ',' then
      match splitOnChar ',' coords with
      | [a, b] =>
          match pyInt? a, pyInt? b with
          | some x, some y => some (ClickAction.mk (x : Rat) (y : Rat) "left" (1 / 5) now)
          | _, _ => none
      | _ => none
    else none
  else if List.isPrefixOf "wait:".data (pyLower line) then
    (pyFloat? (pyStrip (line.drop 5))).map (fun w => DelayAction.mk w now)
  else none

/-- `GeminiProvider._parse_text_response` (`api_integration.py` lines
303-334): the heuristic fallback stage, scanning the content line by line. -/
def parseTextResponse (now : Rat) (content : String) : List ActionData :=
  (splitOnChar '\n' content.data).filterMap (parseTextResponseLine now)

/-- `GeminiProvider._create_action_from_data` (`api_integration.py` lines
277-301). `KeyError`, `TypeError` and `ValueError` are caught inside and
yield `none` (the entry is skipped); an `AttributeError` — `.upper()` on a
non-string `type`, `.title()` on a non-string `button`, or field access on a
non-object entry — is not in the catch list and propagates. Corners where the
dynamically typed source would store an oddly typed field in a constructed
action (for example a numeric `key`) are collapsed to a skipped entry in this
typed embedding; no claim exercises them. -/
def createActionFromData (now : Rat) (data : JValue) : Except String (Option ActionData) :=
  match data with
  | .obj fields =>
      match jget fields "type" (JValue.str "") with
      | .str ts =>
          let t := String.mk (ts.data.map Char.toUpper)
          let delay : Rat :=
            match jget fields "delay" (JValue.num 0) with
            | .num q => q
            | _ => 0
          if t = "TYPE" then
            match jfind fields "text" with
            | some (.str txt) => .ok (some (TypeAction.mk txt delay now))
            | some _ => .ok none
            | none => .ok none
          else if t = "CLICK" then
            match jfind fields "x", jfind fields "y" with
            | some (.num x), some (.num y) =>
                match jget fields "button" (JValue.str "left") with
                | .str b => .ok (some (ClickAction.mk x y b delay now))
                | _ => .error "AttributeError"
            | some _, some _ => .ok none
            | none, _ => .ok none
            | _, none => .ok none
          else if t = "DELAY" then
            match jfind fields "wait_time" with
            | some (.num w) => .ok (some (DelayAction.mk w now))
            | some _ => .ok none
            | none => .ok none
          else if t = "HOTKEY" then
            match jfind fields "keys" with
            | some (.arr items) =>
                let strs? : Option (List String) :=
                  items.foldr (fun v acc =>
                    match v, acc with
                    | .str s, some l => some (s :: l)
                    | _, _ => none) (some [])
                match strs? with
                | some ks => .ok (some (HotkeyAction.mk ks delay now))
                | none => .ok none
            | some (.str s) => .ok (some (HotkeyAction.mk [s] delay now))
            | some _ => .ok none
            | none => .ok none
          else if t = "SPECIAL_KEY" then
            match jfind fields "key" with
            | some (.str k) => .ok (some (SpecialKeyAction.mk k delay now))
            | some _ => .ok none
            | none => .ok none
          else .ok none
      | _ => .error "AttributeError"
  | _ => .error "AttributeError"

/-- The `for action_data in data.get('actions', [])` loop of
`_parse_action_response` (`api_integration.py` lines 265-268): entries are
created in order, truthy results appended, and an uncaught error propagates. -/
def collectActions (now : Rat) : List JValue → Except String (List ActionData)
  | [] => .ok []
  | d :: rest =>
      match createActionFromData now d with
      | .error e => .error e
      | .ok a? =>
          match collectActions now rest with
          | .error e => .error e
          | .ok l => .ok (match a? with | some a => a :: l | none => l)

/-- The candidate JSON span of `_parse_action_response` (`api_integration.py`
lines 258-262): the substring from the first `{` to the last `}`, provided
both exist and the `}` is not before the `{`. -/
def jsonSpan (content : String) : Option String :=
  let cs := content.data
  let startIdx := cs.findIdx? (fun c => c = '{')
  let endIdx :=
    match cs.reverse.findIdx? (fun c => c = '}') with
    | some j => some (cs.length - 1 - j)
    | none => none
  match startIdx, endIdx with
  | some s, some e =>
      if s < e + 1 then some (String.mk ((cs.drop s).take (e + 1 - s))) else none
  | some _, none => none
  | none, _ => none

/-- `GeminiProvider._parse_action_response` (`api_integration.py` lines
252-275). Only `json.JSONDecodeError` (modelled by `jsonLoads` returning
`none`) and `KeyError` are caught and routed to the heuristic fallback; a
`TypeError` (iterating a non-list `actions` value) or `AttributeError`
(field access on a non-object) raised while walking the decoded value
propagates to the caller. When no candidate span exists the `try` body does
nothing and the empty list is returned without running the fallback. A
decoded value that is a string iterates over its characters, so an empty
string yields the empty list and a non-empty one raises on its first
character. -/
def parseActionResponse (jsonLoads : String → Option JValue) (now : Rat)
    (content : String) : Except String (List ActionData) :=
  match jsonSpan content with
  | none => .ok []
  | some sp =>
      match jsonLoads sp with
      | none => .ok (parseTextResponse now content)
      | some (.obj fields) =>
          match jget fields "actions" (JValue.arr []) with
          | .arr items => collectActions now items
          | .str s => if s.data.isEmpty then .ok [] else .error "AttributeError"
          | _ => .error "TypeError"
      | some _ => .error "AttributeError"

/-- Sufficient well-typedness condition on one `actions` entry under which
neither the source nor the model raises: the entry is an object whose `type`
value (if present) is a string and whose `button` value (if present) is a
string. -/
def entryWellTyped : JValue → Bool
  | .obj fields =>
      (match jget fields "type" (JValue.str "") with
       | .str _ => true
       | _ => false) &&
      (match jget fields "button" (JValue.str "left") with
       | .str _ => true
       | _ => false)
  | _ => false

/-- Sufficient condition on the decoded response under which
`parseActionResponse` cannot raise: either no candidate span exists, or the
span fails to decode, or it decodes to an object whose `actions` value is an
array of well-typed entries. -/
def responseWellShaped (jsonLoads : String → Option JValue) (content : String) : Bool :=
  match jsonSpan content with
  | none => true
  | some sp =>
      match jsonLoads sp with
      | none => true
      | some (.obj fields) =>
          match jget fields "actions" (JValue.arr []) with
          | .arr items => items.all entryWellTyped
          | _ => false
      | some _ => false

/-- Expected event trace of the inner action loop when no action aborts and
the stop predicate never fires: for each action index `i`, the progress
callback then the invocation. -/
def innerTrace (li lc total : Nat) : Nat → Nat → List ExecEvent
  | _, 0 => []
  | i, n + 1 =>
      ExecEvent.progress li lc (i : Int) total (some i) ::
        ExecEvent.invoke i :: innerTrace li lc total (i + 1) n

/-- Expected event trace of a full looped run with no stop and no abort:
one inner block per loop iteration, with the inter-loop marker and sleep
strictly between consecutive iterations. -/
def loopedTrace (lc total len : Nat) (ri : Rat) : Nat → Nat → List ExecEvent
  | _, 0 => []
  | li, 1 => innerTrace li lc total 0 len
  | li, rem + 2 =>
      innerTrace li lc total 0 len ++
        ExecEvent.progress li lc (-1) total none :: ExecEvent.sleep ri ::
          loopedTrace lc total len ri (li + 1) (rem + 1)

/-- Indices of the actions actually invoked during a run, in order. -/
def invokedIndices (evs : List ExecEvent) : List Nat :=
  evs.filterMap (fun e =>
    match e with
    | ExecEvent.invoke i => some i
    | _ => none)

/-- Number of inter-loop marker callbacks (`action_idx = -1`, no action) in a
trace. -/
def countInterLoopMarkers (evs : List ExecEvent) : Nat :=
  evs.countP (fun e =>
    match e with
    | ExecEvent.progress _ _ ai _ act => ai == -1 && act.isNone
    | _ => false)

lemma invokedIndices_innerTrace (li lc total : Nat) :
    ∀ (n i : Nat), invokedIndices (innerTrace li lc total i n) = List.range' i n := by
  intro n
  induction n with
  | zero => intro i; rfl
  | succ n ih =>
      intro i
      simp only [innerTrace, invokedIndices, List.filterMap] at *
      simpa [List.range'] using ih (i + 1)

lemma range'_concat (i : Nat) : ∀ n : Nat, List.range' i n ++ [i + n] = List.range' i (n + 1) := by
  intro n
  induction n generalizing i with
  | zero => simp [List.range']
  | succ n ih =>
      simp only [List.range']
      have := ih (i + 1)
      simp only [List.range'] at this ⊢
      simp [← this, Nat.add_assoc, Nat.add_comm 1 n]

lemma execInner_no_abort (soe : Bool) (li lc total : Nat) :
    ∀ (acts : List ActOutcome) (i : Nat) (st : SeqRuntime) (k : Nat),
      (∀ a ∈ acts,
        ((match a with | ActOutcome.ok b => !b | ActOutcome.err => true) && soe) = false) →
      (execInner (fun _ => false) soe li lc total i acts st k).1 = InnerResult.completed ∧
      (execInner (fun _ => false) soe li lc total i acts st k).2.1
        = innerTrace li lc total i acts.length := by
  intro acts
  induction acts with
  | nil => intro i st k _; exact ⟨rfl, rfl⟩
  | cons a rest ih =>
      intro i st k hall
      have ha := hall a (List.mem_cons_self a rest)
      have hrest : ∀ x ∈ rest,
          ((match x with | ActOutcome.ok b => !b | ActOutcome.err => true) && soe) = false :=
        fun x hx => hall x (List.mem_cons_of_mem a hx)
      have := ih (i + 1) { st with current_action_index := i } (k + 1) hrest
      simp only [execInner, Bool.false_eq_true, if_false, ha, List.length_cons, innerTrace]
      constructor
      · exact this.1
      · simp [this.2]

lemma execInner_cons_ok (soe : Bool) (li lc total i : Nat) (rest : List ActOutcome)
    (st : SeqRuntime) (k : Nat) :
    execInner (fun _ => false) soe li lc total i (ActOutcome.ok true :: rest) st k
      = ((execInner (fun _ => false) soe li lc total (i + 1) rest
            { st with current_action_index := i } (k + 1)).1,
         ExecEvent.progress li lc (i : Int) total (some i) :: ExecEvent.invoke i ::
           (execInner (fun _ => false) soe li lc total (i + 1) rest
             { st with current_action_index := i } (k + 1)).2.1,
         (execInner (fun _ => false) soe li lc total (i + 1) rest
           { st with current_action_index := i } (k + 1)).2.2) := rfl

lemma execInner_abort (li lc total : Nat) :
    ∀ (pre : List ActOutcome) (f : ActOutcome) (post : List ActOutcome)
      (i : Nat) (st : SeqRuntime) (k : Nat),
      (∀ a ∈ pre, a = ActOutcome.ok true) →
      (f = ActOutcome.err ∨ f = ActOutcome.ok false) →
      (execInner (fun _ => false) true li lc total i (pre ++ f :: post) st k).1
        = InnerResult.aborted ∧
      (execInner (fun _ => false) true li lc total i (pre ++ f :: post) st k).2.1
        = innerTrace li lc total i pre.length ++
            [ExecEvent.progress li lc ((i + pre.length : Nat) : Int) total
               (some (i + pre.length)),
             ExecEvent.invoke (i + pre.length)] := by
  intro pre
  induction pre with
  | nil =>
      intro f post i st k _ hf
      rcases hf with hf | hf <;>
        subst hf <;>
        simp [execInner, innerTrace]
  | cons a rest ih =>
      intro f post i st k hpre hf
      have ha : a = ActOutcome.ok true := hpre a (List.mem_cons_self a rest)
      subst ha
      have hrest : ∀ x ∈ rest, x = ActOutcome.ok true :=
        fun x hx => hpre x (List.mem_cons_of_mem _ hx)
      have hmain := ih f post (i + 1) { st with current_action_index := i }
        (k + 1) hrest hf
      rw [List.cons_append, execInner_cons_ok]
      refine ⟨hmain.1, ?_⟩
      simp only [hmain.2, List.length_cons, innerTrace, List.cons_append]
      simp [Nat.add_assoc, Nat.add_comm 1 rest.length]

lemma execLoops_succ (soe le : Bool) (ri : Rat) (acts : List ActOutcome)
    (lc total li rem : Nat) (st : SeqRuntime) (k : Nat) :
    execLoops (fun _ => false) soe le ri acts lc total li (rem + 1) st k
      = (match (execInner (fun _ => false) soe li lc total 0 acts
            { st with current_loop := li + 1 } (k + 1)).1 with
         | InnerResult.aborted =>
             (false,
              (execInner (fun _ => false) soe li lc total 0 acts
                { st with current_loop := li + 1 } (k + 1)).2.1,
              (execInner (fun _ => false) soe li lc total 0 acts
                { st with current_loop := li + 1 } (k + 1)).2.2)
         | _ =>
             let interEvs : List ExecEvent :=
               if le && decide (li < lc - 1) && decide (0 < ri) then
                 [ExecEvent.progress li lc (-1) total none, ExecEvent.sleep ri]
               else []
             let rest := execLoops (fun _ => false) soe le ri acts lc total
               (li + 1) rem
               (execInner (fun _ => false) soe li lc total 0 acts
                 { st with current_loop := li + 1 } (k + 1)).2.2.1
               (execInner (fun _ => false) soe li lc total 0 acts
                 { st with current_loop := li + 1 } (k + 1)).2.2.2
             (rest.1,
              (execInner (fun _ => false) soe li lc total 0 acts
                { st with current_loop := li + 1 } (k + 1)).2.1 ++
                interEvs ++ rest.2.1,
              rest.2.2)) := rfl

lemma execLoops_all_ok (soe : Bool) (ri : Rat) (hri : 0 < ri)
    (acts : List ActOutcome) (n total : Nat)
    (hall : ∀ a ∈ acts, a = ActOutcome.ok true) :
    ∀ (rem li : Nat), li + rem = n →
      ∀ (st : SeqRuntime) (k : Nat),
        (execLoops (fun _ => false) soe true ri acts n total li rem st k).1 = true ∧
        (execLoops (fun _ => false) soe true ri acts n total li rem st k).2.1
          = loopedTrace n total acts.length ri li rem := by
  have hfail : ∀ a ∈ acts,
      ((match a with | ActOutcome.ok b => !b | ActOutcome.err => true) && soe) = false := by
    intro a ha; rw [hall a ha]; rfl
  intro rem
  induction rem with
  | zero => intro li _ st k; exact ⟨rfl, rfl⟩
  | succ rem ih =>
      intro li hn st k
      have hinner := execInner_no_abort soe li n total acts 0
        { st with current_loop := li + 1 } (k + 1) hfail
      cases rem with
      | zero =>
          have hlt : ¬ (li < n - 1) := by omega
          rw [execLoops_succ]
          simp only [hinner.1]
          simp [hinner.2, hlt, loopedTrace, execLoops]
      | succ rem =>
          have hlt : li < n - 1 := by omega
          have hrec := ih (li + 1) (by omega)
          rw [execLoops_succ]
          simp only [hinner.1]
          simp [hinner.2, hlt, hri, loopedTrace, hrec]

lemma countMarkers_innerTrace (li lc total : Nat) :
    ∀ (n i : Nat), countInterLoopMarkers (innerTrace li lc total i n) = 0 := by
  intro n
  induction n with
  | zero => intro i; rfl
  | succ n ih =>
      intro i
      simp only [innerTrace, countInterLoopMarkers, List.countP_cons] at *
      simp [ih (i + 1)]

lemma countMarkers_loopedTrace (lc total len : Nat) (ri : Rat) :
    ∀ (rem li : Nat),
      countInterLoopMarkers (loopedTrace lc total len ri li rem) = rem - 1 := by
  intro rem
  induction rem with
  | zero => intro li; rfl
  | succ rem ih =>
      intro li
      cases rem with
      | zero => simpa [loopedTrace] using countMarkers_innerTrace li lc total len 0
      | succ rem =>
          have hblock := countMarkers_innerTrace li lc total len 0
          have hrec := ih (li + 1)
          simp only [loopedTrace, countInterLoopMarkers, List.countP_append,
            List.countP_cons] at *
          simp [hblock, hrec]

lemma execInner_st_irrel (stop : Nat → Bool) (soe : Bool) (li lc total : Nat) :
    ∀ (acts : List ActOutcome) (i : Nat) (st st' : SeqRuntime) (k : Nat),
      (execInner stop soe li lc total i acts st k).1
        = (execInner stop soe li lc total i acts st' k).1 ∧
      (execInner stop soe li lc total i acts st k).2.1
        = (execInner stop soe li lc total i acts st' k).2.1 ∧
      (execInner stop soe li lc total i acts st k).2.2.2
        = (execInner stop soe li lc total i acts st' k).2.2.2 := by
  intro acts
  induction acts with
  | nil => intro i st st' k; exact ⟨rfl, rfl, rfl⟩
  | cons a rest ih =>
      intro i st st' k
      cases hstop : stop k with
      | true => simp [execInner, hstop]
      | false =>
          cases hf : ((match a with | ActOutcome.ok b => !b | ActOutcome.err => true) && soe) with
          | true => simp [execInner, hstop, hf]
          | false =>
              have hrec := ih (i + 1) { st with current_action_index := i }
                { st' with current_action_index := i } (k + 1)
              simp [execInner, hstop, hf, hrec.1, hrec.2.1, hrec.2.2]

lemma execLoops_st_irrel (stop : Nat → Bool) (soe le : Bool) (ri : Rat)
    (acts : List ActOutcome) (lc total : Nat) :
    ∀ (rem li : Nat) (st st' : SeqRuntime) (k : Nat),
      (execLoops stop soe le ri acts lc total li rem st k).1
        = (execLoops stop soe le ri acts lc total li rem st' k).1 ∧
      (execLoops stop soe le ri acts lc total li rem st k).2.1
        = (execLoops stop soe le ri acts lc total li rem st' k).2.1 := by
  intro rem
  induction rem with
  | zero => intro li st st' k; exact ⟨rfl, rfl⟩
  | succ rem ih =>
      intro li st st' k
      have hin := execInner_st_irrel stop soe li lc total acts 0
        { st with current_loop := li + 1 } { st' with current_loop := li + 1 } (k + 1)
      cases hstop : stop k with
      | true => simp [execLoops, hstop]
      | false =>
          cases hres : (execInner stop soe li lc total 0 acts
              { st with current_loop := li + 1 } (k + 1)).1 with
          | aborted =>
              have hres' := hin.1.symm.trans hres
              simp [execLoops, hstop, hres, hres', hin.2.1]
          | stoppedInner =>
              have hres' := hin.1.symm.trans hres
              have hrec := ih (li + 1)
                (execInner stop soe li lc total 0 acts
                  { st with current_loop := li + 1 } (k + 1)).2.2.1
                (execInner stop soe li lc total 0 acts
                  { st' with current_loop := li + 1 } (k + 1)).2.2.1
                ((execInner stop soe li lc total 0 acts
                  { st' with current_loop := li + 1 } (k + 1)).2.2.2)
              simp [execLoops, hstop, hres, hres', hin.2.1, hin.2.2,
                hrec.1, hrec.2]
          | completed =>
              have hres' := hin.1.symm.trans hres
              have hrec := ih (li + 1)
                (execInner stop soe li lc total 0 acts
                  { st with current_loop := li + 1 } (k + 1)).2.2.1
                (execInner stop soe li lc total 0 acts
                  { st' with current_loop := li + 1 } (k + 1)).2.2.1
                ((execInner stop soe li lc total 0 acts
                  { st' with current_loop := li + 1 } (k + 1)).2.2.2)
              simp [execLoops, hstop, hres, hres', hin.2.1, hin.2.2,
                hrec.1, hrec.2]

lemma invokedIndices_append (l1 l2 : List ExecEvent) :
    invokedIndices (l1 ++ l2) = invokedIndices l1 ++ invokedIndices l2 := by
  simp [invokedIndices]

/-- C1: During `ActionSequence.execute()`, when an action's `execute()` raises
`ActionError` or returns non-success: with `stop_on_error = true` the whole
run aborts, `execute()` returns `false`, and no later action of the sequence
is invoked (exactly the actions up to and including the failing one run, in
order); with `stop_on_error = false` the failure is swallowed, every action
of the sequence is executed exactly once in order, and `execute()` returns
`true`. Stated for a single (non-looped) pass with no stop predicate. -/
theorem seq_execute_stop_on_error_policy
    (cfg : SeqConfig) (acts pre post : List ActOutcome) (f : ActOutcome)
    (st0 : SeqRuntime) (hle : cfg.loop_enabled = false) :
    (cfg.stop_on_error = true → acts = pre ++ f :: post →
      (∀ a ∈ pre, a = ActOutcome.ok true) →
      (f = ActOutcome.err ∨ f = ActOutcome.ok false) →
      (ActionSequence.execute cfg acts (fun _ => false) st0).1 = false ∧
      invokedIndices (ActionSequence.execute cfg acts (fun _ => false) st0).2.1
        = List.range (pre.length + 1)) ∧
    (cfg.stop_on_error = false →
      (ActionSequence.execute cfg acts (fun _ => false) st0).1 = true ∧
      invokedIndices (ActionSequence.execute cfg acts (fun _ => false) st0).2.1
        = List.range acts.length) := by
  constructor
  · intro hsoe hacts hpre hf
    subst hacts
    have habort := execInner_abort 0 1 (pre ++ f :: post).length pre f post 0
      { st0 with is_running := true, current_loop := 1 } 1 hpre hf
    have h2 := habort.2
    simp only [Nat.zero_add] at h2
    simp only [ActionSequence.execute, hle, hsoe, Bool.false_eq_true, if_false]
    rw [execLoops_succ]
    simp only [habort.1]
    refine ⟨trivial, ?_⟩
    rw [h2, invokedIndices_append,
      invokedIndices_innerTrace 0 1 (pre ++ f :: post).length pre.length 0]
    have hsingle :
        invokedIndices
          [ExecEvent.progress 0 1 (pre.length : Int) (pre ++ f :: post).length
             (some pre.length),
           ExecEvent.invoke pre.length] = [pre.length] := by
      simp [invokedIndices]
    rw [hsingle, List.range_eq_range', ← range'_concat 0 pre.length]
    simp
  · intro hsoe
    have hfail : ∀ a ∈ acts,
        ((match a with | ActOutcome.ok b => !b | ActOutcome.err => true) &&
          cfg.stop_on_error) = false := by
      intro a _; rw [hsoe]; exact Bool.and_false _
    have hinner := execInner_no_abort cfg.stop_on_error 0 1 acts.length acts 0
      { st0 with is_running := true, current_loop := 1 } 1 hfail
    simp only [ActionSequence.execute, hle, Bool.false_eq_true, if_false]
    rw [execLoops_succ]
    simp only [hinner.1]
    constructor
    · simp [execLoops]
    · simp only [execLoops, hinner.2, Bool.false_and, Bool.and_eq_true]
      simp [List.append_nil]
      rw [List.range_eq_range']
      exact invokedIndices_innerTrace 0 1 acts.length acts.length 0

/-- Witness for C1: three actions, the second raising, under both policies. -/
theorem seq_execute_stop_on_error_policy_witness :
    ((ActionSequence.execute ⟨false, 1, 0, true⟩
        [ActOutcome.ok true, ActOutcome.err, ActOutcome.ok true]
        (fun _ => false) ⟨false, 0, 0⟩).1 = false ∧
     invokedIndices (ActionSequence.execute ⟨false, 1, 0, true⟩
        [ActOutcome.ok true, ActOutcome.err, ActOutcome.ok true]
        (fun _ => false) ⟨false, 0, 0⟩).2.1 = List.range 2) ∧
    ((ActionSequence.execute ⟨false, 1, 0, false⟩
        [ActOutcome.ok true, ActOutcome.err, ActOutcome.ok true]
        (fun _ => false) ⟨false, 0, 0⟩).1 = true ∧
     invokedIndices (ActionSequence.execute ⟨false, 1, 0, false⟩
        [ActOutcome.ok true, ActOutcome.err, ActOutcome.ok true]
        (fun _ => false) ⟨false, 0, 0⟩).2.1 = List.range 3) := by
  constructor
  · exact (seq_execute_stop_on_error_policy ⟨false, 1, 0, true⟩
      [ActOutcome.ok true, ActOutcome.err, ActOutcome.ok true]
      [ActOutcome.ok true] [ActOutcome.ok true] ActOutcome.err
      ⟨false, 0, 0⟩ rfl).1 rfl rfl (by decide) (Or.inl rfl)
  · exact (seq_execute_stop_on_error_policy ⟨false, 1, 0, false⟩
      [ActOutcome.ok true, ActOutcome.err, ActOutcome.ok true]
      [] [] ActOutcome.err ⟨false, 0, 0⟩ rfl).2 rfl

/-- C2: for every `ActionSequence` and every execution outcome, immediately
after `execute()` returns, `is_running` is `false` and both
`current_action_index` and `current_loop` equal 0 — the `finally` block
resets the runtime fields on every exit path. -/
theorem seq_execute_resets_runtime (cfg : SeqConfig) (acts : List ActOutcome)
    (stop : Nat → Bool) (st0 : SeqRuntime) :
    (ActionSequence.execute cfg acts stop st0).2.2
      = { is_running := false, current_action_index := 0, current_loop := 0 } := rfl

/-- C3 counterexample: calling `execute()` on a sequence whose `is_running`
is already `true` is neither rejected nor a no-op — the run proceeds
normally: the single action is invoked and the call returns `true`. -/
theorem seq_execute_while_running_runs_again :
    (ActionSequence.execute ⟨false, 1, 0, true⟩ [ActOutcome.ok true]
      (fun _ => false) ⟨true, 0, 0⟩).1 = true ∧
    invokedIndices (ActionSequence.execute ⟨false, 1, 0, true⟩ [ActOutcome.ok true]
      (fun _ => false) ⟨true, 0, 0⟩).2.1 = [0] := by decide

/-- C3 amended: `execute()` performs no `is_running` guard at all — a call on
a sequence whose `is_running` is already `true` behaves exactly like a call
on an idle one (same result, same events, same final state): the run is
duplicated, not rejected, queued, or turned into a no-op. -/
theorem seq_execute_ignores_prior_runtime (cfg : SeqConfig)
    (acts : List ActOutcome) (stop : Nat → Bool) (st0 st1 : SeqRuntime) :
    ActionSequence.execute cfg acts stop st0
      = ActionSequence.execute cfg acts stop st1 := by
  have h := execLoops_st_irrel stop cfg.stop_on_error cfg.loop_enabled
    cfg.repeat_interval acts (if cfg.loop_enabled then cfg.loop_count else 1)
    acts.length (if cfg.loop_enabled then cfg.loop_count else 1) 0
    { st0 with is_running := true } { st1 with is_running := true } 0
  simp only [ActionSequence.execute, Prod.mk.injEq]
  exact ⟨h.1, h.2, trivial⟩

/-- C7: for every run with `loop_enabled = true`, `loop_count = n` (n ≥ 1),
`repeat_interval > 0`, no early stop and no abort (every action succeeds),
the full event trace consists of one inner block per loop iteration with the
inter-loop marker callback `progress_callback(loop_index, loop_count, -1,
total_actions, none)` (followed by the inter-loop sleep) strictly between
consecutive iterations — never before the first and never after the last —
so the marker fires exactly `n - 1` times. -/
theorem seq_execute_interloop_markers
    (cfg : SeqConfig) (acts : List ActOutcome) (st0 : SeqRuntime) (n : Nat)
    (hle : cfg.loop_enabled = true) (hlc : cfg.loop_count = n) (_hn : 1 ≤ n)
    (hri : 0 < cfg.repeat_interval)
    (hall : ∀ a ∈ acts, a = ActOutcome.ok true) :
    (ActionSequence.execute cfg acts (fun _ => false) st0).2.1
      = loopedTrace n acts.length acts.length cfg.repeat_interval 0 n ∧
    countInterLoopMarkers
        (ActionSequence.execute cfg acts (fun _ => false) st0).2.1
      = n - 1 := by
  have hloops := execLoops_all_ok cfg.stop_on_error cfg.repeat_interval hri acts
    n acts.length hall n 0 (by omega) { st0 with is_running := true } 0
  have htrace :
      (ActionSequence.execute cfg acts (fun _ => false) st0).2.1
        = loopedTrace n acts.length acts.length cfg.repeat_interval 0 n := by
    simp only [ActionSequence.execute, hle, hlc, if_true]
    exact hloops.2
  refine ⟨htrace, ?_⟩
  rw [htrace]
  exact countMarkers_loopedTrace n acts.length acts.length cfg.repeat_interval n 0

/-- Witness for C7: `loop_count = 3`, `repeat_interval = 2`, one succeeding
action; the marker fires exactly twice, between iterations 1-2 and 2-3. -/
theorem seq_execute_interloop_markers_witness :
    (ActionSequence.execute ⟨true, 3, 2, true⟩ [ActOutcome.ok true]
        (fun _ => false) ⟨false, 0, 0⟩).2.1
      = loopedTrace 3 1 1 2 0 3 ∧
    countInterLoopMarkers
        (ActionSequence.execute ⟨true, 3, 2, true⟩ [ActOutcome.ok true]
          (fun _ => false) ⟨false, 0, 0⟩).2.1 = 2 :=
  seq_execute_interloop_markers ⟨true, 3, 2, true⟩ [ActOutcome.ok true]
    ⟨false, 0, 0⟩ 3 rfl rfl (by decide) (by decide) (by decide)

/-- C4: for every action variant, reconstructing the action via
`from_dict(to_dict(a))` — as `clone()` does — yields an action with the same
observable fields (variant fields plus `delay`, `id`, `name`, `description`,
`enabled`, `created_at`). The hypothesis records the program invariant that
`description` carries its derived value: `description` is only ever written
by the constructors and by `from_dict`, both of which compute it from the
variant fields, so it holds of every action the program constructs. -/
theorem action_roundtrip (a : ActionData) (now : Rat)
    (hdesc : a.base.description = canonicalDescription a) :
    Action.create_from_dict now a.to_dict = Except.ok a := by
  cases a with
  | typeAction b text =>
      obtain ⟨d, i, nm, ds, en, ca⟩ := b
      simp only [ActionData.base, canonicalDescription] at hdesc
      subst hdesc
      rfl
  | clickAction b x y button =>
      obtain ⟨d, i, nm, ds, en, ca⟩ := b
      simp only [ActionData.base, canonicalDescription] at hdesc
      subst hdesc
      rfl
  | delayAction b wait_time =>
      obtain ⟨d, i, nm, ds, en, ca⟩ := b
      simp only [ActionData.base, canonicalDescription] at hdesc
      subst hdesc
      rfl
  | hotkeyAction b keys =>
      obtain ⟨d, i, nm, ds, en, ca⟩ := b
      simp only [ActionData.base, canonicalDescription] at hdesc
      subst hdesc
      rfl
  | specialKeyAction b key =>
      obtain ⟨d, i, nm, ds, en, ca⟩ := b
      simp only [ActionData.base, canonicalDescription] at hdesc
      subst hdesc
      rfl
  | scrollAction b x y clicks direction =>
      obtain ⟨d, i, nm, ds, en, ca⟩ := b
      simp only [ActionData.base, canonicalDescription] at hdesc
      subst hdesc
      rfl
  | dragAction b sx sy ex ey dur button =>
      obtain ⟨d, i, nm, ds, en, ca⟩ := b
      simp only [ActionData.base, canonicalDescription] at hdesc
      subst hdesc
      rfl

/-- Witness for C4: a concrete Scroll action round-trips exactly. -/
theorem action_roundtrip_witness :
    Action.create_from_dict 9 (ActionData.to_dict (ScrollAction.mk 3 4 5 "down" 1 7))
      = Except.ok (ScrollAction.mk 3 4 5 "down" 1 7) :=
  action_roundtrip (ScrollAction.mk 3 4 5 "down" 1 7) 9 rfl

/-- C5: the special-key tokenizer scans left to right; a bracketed substring
whose lowercase form is in the registry is emitted as a key segment after
flushing accumulated literal text, and the scan resumes past the closing
bracket; on a miss — no closing `>` at all, or the bracketed substring not
registered — the `<` is kept as an ordinary literal character and the scan
advances by one. In particular `tokenize("Hello<enter>World") = [(text,
"Hello"), (key, "enter"), (text, "World")]` and `tokenize("<bogus>ok") =
[(text, "<bogus>ok")]`. -/
theorem tokenizer_spec :
    parseTextWithSpecialKeys "Hello<enter>World"
      = [Segment.text "Hello", Segment.key "enter", Segment.text "World"] ∧
    parseTextWithSpecialKeys "<bogus>ok" = [Segment.text "<bogus>ok"] ∧
    (∀ (fuel : Nat) (acc cs : List Char),
      splitAtClose ('<' :: cs) = none →
      tokenizeAux (fuel + 1) acc ('<' :: cs) = tokenizeAux fuel (acc ++ ['<']) cs) ∧
    (∀ (fuel : Nat) (acc cs tok rest : List Char),
      splitAtClose ('<' :: cs) = some (tok, rest) →
      specialKeyLookup (String.mk (tok.map Char.toLower)) = none →
      tokenizeAux (fuel + 1) acc ('<' :: cs) = tokenizeAux fuel (acc ++ ['<']) cs) ∧
    (∀ (fuel : Nat) (acc cs tok rest : List Char) (canon : String),
      splitAtClose ('<' :: cs) = some (tok, rest) →
      specialKeyLookup (String.mk (tok.map Char.toLower)) = some canon →
      tokenizeAux (fuel + 1) acc ('<' :: cs)
        = flushText acc ++ Segment.key canon :: tokenizeAux fuel [] rest) := by
  refine ⟨by decide, by decide, ?_, ?_, ?_⟩
  · intro fuel acc cs h
    simp [tokenizeAux, h]
  · intro fuel acc cs tok rest h1 h2
    simp [tokenizeAux, h1, h2]
  · intro fuel acc cs tok rest canon h1 h2
    simp [tokenizeAux, h1, h2]

/-- Witness for C5: the miss rule applied at a concrete input with no closing
bracket. -/
theorem tokenizer_spec_witness :
    tokenizeAux 3 [] ('<' :: "ab".data) = tokenizeAux 2 ['<'] "ab".data :=
  tokenizer_spec.2.2.1 2 [] "ab".data (by decide)

/-- C9 (code-bug exhibit): a Delay action reconstructed by the factory from a
mapping whose `delay` field is 2 and `wait_time` is 1 does not ignore the
base delay: executing it sleeps 2 seconds and then 1 second, contradicting
the documented "ignores base delay" behavior, while a constructor-built
Delay action sleeps only `wait_time`. -/
theorem delayAction_base_delay_slept :
    (Action.create_from_dict 0
        [("type", PyVal.str "DelayAction"), ("wait_time", PyVal.num 1),
         ("delay", PyVal.num 2)]).map ActionData.execute
      = Except.ok (true, [ActEvent.sleep 2, ActEvent.sleep 1]) ∧
    ActionData.execute (DelayAction.mk 1 0) = (true, [ActEvent.sleep 1]) :=
  ⟨rfl, rfl⟩

/-- C10: for every action whose `enabled` field is `false`, `execute()`
returns success immediately: the pre-execution sleep of `delay` seconds is
skipped as well, and no device operation is performed. -/
theorem disabled_action_execute_noop (a : ActionData)
    (h : a.base.enabled = false) :
    ActionData.execute a = (true, []) := by
  simp [ActionData.execute, h]

/-- Witness for C10: a disabled Type action with a positive delay performs
nothing and succeeds. -/
theorem disabled_action_execute_noop_witness :
    ActionData.execute (ActionData.typeAction
      { delay := 5, id := PyVal.pyNone, name := "Type Text",
        description := "d", enabled := false, created_at := 0 } "hi")
      = (true, []) :=
  disabled_action_execute_noop (ActionData.typeAction
    { delay := 5, id := PyVal.pyNone, name := "Type Text",
      description := "d", enabled := false, created_at := 0 } "hi") rfl

/-- C6 counterexample: for the input `"Type: Hello<enter>"` — which contains
the magic line and has no valid JSON span (no brace at all) — the parser
returns the empty list, not one Type action: when no candidate span exists
the heuristic fallback is never invoked. -/
theorem parse_response_no_span_skips_fallback :
    parseActionResponse (fun _ => none) 0 "Type: Hello<enter>" = Except.ok [] ∧
    ([] : List ActionData) ≠ [TypeAction.mk "Hello<enter>" (1 / 2) 0] :=
  ⟨rfl, by decide⟩

/-- C6 amended: the heuristic fallback runs exactly when a candidate JSON
span exists (a `{` with a `}` not before it) and that span fails to decode;
when no candidate span exists, the parser returns the empty list without
invoking the fallback; and for the input `"{bad}\nType: Hello<enter>"`,
whose span `"{bad}"` fails to decode, the parser returns exactly one Type
action with text `"Hello<enter>"` and delay 0.5. -/
theorem parse_response_fallback_on_decode_failure
    (jsonLoads : String → Option JValue) (now : Rat) (content : String) :
    (∀ sp, jsonSpan content = some sp → jsonLoads sp = none →
      parseActionResponse jsonLoads now content
        = Except.ok (parseTextResponse now content)) ∧
    (jsonSpan content = none →
      parseActionResponse jsonLoads now content = Except.ok []) ∧
    parseActionResponse (fun _ => none) 0 "{bad}\nType: Hello<enter>"
      = Except.ok [TypeAction.mk "Hello<enter>" (1 / 2) 0] := by
  refine ⟨?_, ?_, rfl⟩
  · intro sp h1 h2
    simp [parseActionResponse, h1, h2]
  · intro h
    simp [parseActionResponse, h]

/-- Witness for C6: a concrete input whose candidate span fails to decode is
routed to the heuristic fallback. -/
theorem parse_response_fallback_on_decode_failure_witness :
    parseActionResponse (fun _ => none) 0 "{x}"
      = Except.ok (parseTextResponse 0 "{x}") :=
  (parse_response_fallback_on_decode_failure (fun _ => none) 0 "{x}").1 "{x}" rfl rfl

lemma createActionFromData_ok (now : Rat) (d : JValue)
    (h : entryWellTyped d = true) :
    ∃ o, createActionFromData now d = Except.ok o := by
  cases d with
  | obj fields =>
      simp only [entryWellTyped, Bool.and_eq_true] at h
      obtain ⟨h1, h2⟩ := h
      cases ht : jget fields "type" (JValue.str "") with
      | str ts =>
          simp only [createActionFromData, ht]
          repeat' split
          all_goals first
            | exact ⟨_, rfl⟩
            | simp_all
      | null => rw [ht] at h1; simp at h1
      | bool b => rw [ht] at h1; simp at h1
      | num q => rw [ht] at h1; simp at h1
      | arr l => rw [ht] at h1; simp at h1
      | obj l => rw [ht] at h1; simp at h1
  | null => simp [entryWellTyped] at h
  | bool b => simp [entryWellTyped] at h
  | num q => simp [entryWellTyped] at h
  | str s => simp [entryWellTyped] at h
  | arr l => simp [entryWellTyped] at h

lemma collectActions_ok (now : Rat) :
    ∀ items : List JValue, items.all entryWellTyped = true →
      ∃ l, collectActions now items = Except.ok l := by
  intro items
  induction items with
  | nil => intro _; exact ⟨[], rfl⟩
  | cons d rest ih =>
      intro h
      simp only [List.all_cons, Bool.and_eq_true] at h
      obtain ⟨o, ho⟩ := createActionFromData_ok now d h.1
      obtain ⟨l, hl⟩ := ih h.2
      cases o with
      | some a => exact ⟨a :: l, by simp [collectActions, ho, hl]⟩
      | none => exact ⟨l, by simp [collectActions, ho, hl]⟩

/-- C8 amended: for every raw provider text whose candidate span either does
not exist, fails to decode, or decodes to an object whose `actions` value is
an array of well-typed entries, the generative response parser returns a
list (possibly empty) without raising; outside that shape (for example a
decoded `actions` value that is not a list) a `TypeError`/`AttributeError`
propagates to the caller. -/
theorem parse_response_no_raise_when_well_shaped
    (jsonLoads : String → Option JValue) (now : Rat) (content : String)
    (h : responseWellShaped jsonLoads content = true) :
    ∃ l, parseActionResponse jsonLoads now content = Except.ok l := by
  cases hs : jsonSpan content with
  | none => exact ⟨[], by simp [parseActionResponse, hs]⟩
  | some sp =>
      cases hj : jsonLoads sp with
      | none =>
          exact ⟨parseTextResponse now content,
            by simp [parseActionResponse, hs, hj]⟩
      | some v =>
          simp only [responseWellShaped, hs, hj] at h
          cases v with
          | obj fields =>
              cases ha : jget fields "actions" (JValue.arr []) with
              | arr items =>
                  simp only [ha] at h
                  obtain ⟨l, hl⟩ := collectActions_ok now items h
                  exact ⟨l, by simp [parseActionResponse, hs, hj, ha, hl]⟩
              | null => simp [ha] at h
              | bool b => simp [ha] at h
              | num q => simp [ha] at h
              | str s => simp [ha] at h
              | obj l => simp [ha] at h
          | null => simp at h
          | bool b => simp at h
          | num q => simp at h
          | str s => simp at h
          | arr l => simp at h

/-- Witness for C8: a well-shaped decoded response with one well-typed entry
is parsed without raising. -/
theorem parse_response_no_raise_when_well_shaped_witness :
    ∃ l, parseActionResponse
      (fun s => if s = "{}" then
        some (JValue.obj [("actions", JValue.arr
          [JValue.obj [("type", JValue.str "TYPE"), ("text", JValue.str "hi")]])])
        else none) 0 "{}" = Except.ok l :=
  parse_response_no_raise_when_well_shaped
    (fun s => if s = "{}" then
      some (JValue.obj [("actions", JValue.arr
        [JValue.obj [("type", JValue.str "TYPE"), ("text", JValue.str "hi")]])])
      else none) 0 "{}" rfl

/-- C8 counterexample: a provider text that decodes to an object whose
`actions` value is the number 5 makes the parser raise (a `TypeError` from
iterating a non-list), so the parser does not absorb every decoding failure. -/
theorem parse_response_raises_on_nonlist_actions :
    parseActionResponse
      (fun s => if s = "\x7b\"actions\": 5\x7d" then
        some (JValue.obj [("actions", JValue.num 5)]) else none)
      0 "\x7b\"actions\": 5\x7d" = Except.error "TypeError" := rfl
